import Mathlib

/-
Verification development for the CSPM_FalkorDB repository.

The repository's two scripts (src/abc.py, src/abc_langgraph.py) seed a
FalkorDB graph with hardcoded cloud-infrastructure data and run fixed
Cypher pattern queries against it.  The specification describes the
minimal attack-path reachability engine those scripts stand in for: a
Graph Store of typed nodes and directed typed attributed edges, a
backtracking Pattern Matcher, and a Rule Engine with named rules.

The sample graphs and the two query patterns below are transcribed from
the literal CREATE / MATCH Cypher text in the scripts; the engine itself
(graph store operations, matcher, rule registration) does not exist in
the repository's source and is modelled from the spec.
-/

/-- Node labels. Closed enum per the spec's data model (the five labels
appearing in the scripts' CREATE queries). -/
inductive NodeLabel
  | IPRange
  | SecurityGroup
  | Compute
  | IAMRole
  | DataStore
deriving DecidableEq, Repr

/-- Edge types. Closed enum per the spec's data model (the four
relationship types appearing in the scripts' CREATE queries). -/
inductive EdgeType
  | INGRESS_TO
  | ATTACHED_TO
  | ASSUMES
  | ALLOWS
deriving DecidableEq, Repr

/-- Heterogeneous scalar attribute values: string, integer, or list of
strings (the three kinds used by the scripts' Cypher literals). -/
inductive Scalar
  | str (s : String)
  | int (n : Int)
  | strList (l : List String)
deriving DecidableEq, Repr

/-- An attribute map: association list from attribute key to scalar. -/
abbrev Attrs := List (String × Scalar)

/-- A node: unique id, label, attributes. -/
structure Node where
  id : String
  label : NodeLabel
  attributes : Attrs
deriving DecidableEq, Repr

/-- A directed typed attributed edge, referencing nodes by id. -/
structure Edge where
  source : String
  target : String
  type : EdgeType
  attributes : Attrs
deriving DecidableEq, Repr

/-- The graph: owns all nodes and edges, in insertion order. -/
structure Graph where
  nodes : List Node
  edges : List Edge
deriving DecidableEq, Repr

/-- The empty graph. -/
def Graph.empty : Graph := ⟨[], []⟩

/-- Errors of the graph store. -/
inductive StoreError
  | DuplicateNodeError
  | UnknownNodeError
deriving DecidableEq, Repr

/-- Look up a node by id (first node with that id). -/
def Graph.findNode (g : Graph) (i : String) : Option Node :=
  g.nodes.find? fun n => decide (n.id = i)

/-- Whether a node with the given id exists. -/
def Graph.hasNode (g : Graph) (i : String) : Bool :=
  (g.findNode i).isSome

/-- Modelled from the spec: `addNode(id, label, attributes)` of the Graph
Store, absent from src/ — fails with DuplicateNodeError if the id is
already present, otherwise appends the node (insertion order). -/
def Graph.addNode (g : Graph) (i : String) (l : NodeLabel) (a : Attrs) :
    Except StoreError Graph :=
  if g.hasNode i then .error .DuplicateNodeError
  else .ok ⟨g.nodes ++ [⟨i, l, a⟩], g.edges⟩

/-- Modelled from the spec: `addEdge(sourceId, targetId, type, attributes)`
of the Graph Store, absent from src/ — fails with UnknownNodeError if
either endpoint is absent, otherwise appends the edge. -/
def Graph.addEdge (g : Graph) (s t : String) (ty : EdgeType) (a : Attrs) :
    Except StoreError Graph :=
  if g.hasNode s && g.hasNode t then
    .ok ⟨g.nodes, g.edges ++ [⟨s, t, ty, a⟩]⟩
  else .error .UnknownNodeError

/-- Modelled from the spec: `nodesByLabel(label)` — the nodes carrying the
label, in insertion order, no side effects. -/
def Graph.nodesByLabel (g : Graph) (l : NodeLabel) : List Node :=
  g.nodes.filter fun n => decide (n.label = l)

/-- Modelled from the spec: `outEdges(nodeId, type?)` — the edges leaving
the node, optionally filtered by type, in insertion order. -/
def Graph.outEdges (g : Graph) (i : String) (ty : Option EdgeType) : List Edge :=
  g.edges.filter fun e =>
    decide (e.source = i) &&
      (match ty with
       | none => true
       | some t => decide (e.type = t))

/-- Look up an attribute value by key. -/
def attrLookup (a : Attrs) (k : String) : Option Scalar :=
  (a.find? fun kv => decide (kv.1 = k)).map (fun kv => kv.2)

/-- An attribute predicate is a list of required key/value equalities
(as in the Cypher inline property filters); the empty list means "any
value accepted" (a missing predicate). -/
def satisfies (a : Attrs) (p : Attrs) : Bool :=
  p.all fun kv => decide (attrLookup a kv.1 = some kv.2)

/-- One pattern step: traverse an edge of the given type whose attributes
satisfy the edge predicate, to a node of the given label whose attributes
satisfy the node predicate. -/
structure Step where
  edgeType : EdgeType
  edgePred : Attrs
  nodeLabel : NodeLabel
  nodePred : Attrs
deriving DecidableEq, Repr

/-- A pattern: a starting node predicate (label plus attribute
constraints) anchoring an ordered sequence of steps. -/
structure Pattern where
  startLabel : NodeLabel
  startPred : Attrs
  steps : List Step
deriving DecidableEq, Repr

/-- A named rule: a name and a compiled pattern. -/
structure Rule where
  name : String
  pat : Pattern
deriving DecidableEq, Repr

/-- A finding: a witness of one full pattern match — the rule name, the
bound nodes (start node first) and the bound edges, in traversal order. -/
structure Finding where
  ruleName : String
  boundNodes : List Node
  boundEdges : List Edge
deriving DecidableEq, Repr

/-- A partial binding produced while traversing the steps of a pattern:
the nodes and edges bound so far (beyond the start node). -/
abbrev Binding := List Node × List Edge

/-- Modelled from the spec: the backtracking depth-first traversal of the
Pattern Matcher, absent from src/.  At each step, enumerate the frontier
node's outgoing edges of the step's edge type, keep those satisfying the
edge predicate, check the target node's label and node predicate, and
recurse; at the end of the steps emit one (empty) binding. -/
def matchSteps (g : Graph) : List Step → Node → List Binding
  | [], _ => [([], [])]
  | st :: rest, frontier =>
    ((g.outEdges frontier.id (some st.edgeType)).filter fun e =>
        satisfies e.attributes st.edgePred).flatMap fun e =>
      match g.findNode e.target with
      | none => []
      | some n =>
        if decide (n.label = st.nodeLabel) && satisfies n.attributes st.nodePred then
          (matchSteps g rest n).map fun b => (n :: b.1, e :: b.2)
        else []

/-- Modelled from the spec: `match(graph, pattern)` of the Pattern
Matcher — start from every node satisfying the start predicate and emit
one Finding per successful full traversal. -/
def matchPattern (g : Graph) (ruleName : String) (pat : Pattern) : List Finding :=
  ((g.nodesByLabel pat.startLabel).filter fun n =>
      satisfies n.attributes pat.startPred).flatMap fun n =>
    (matchSteps g pat.steps n).map fun b => ⟨ruleName, n :: b.1, b.2⟩

/-- Modelled from the spec: `evaluate(graph, rule)` of the Rule Engine —
run the rule's pattern over the graph. -/
def evaluate (g : Graph) (r : Rule) : List Finding :=
  matchPattern g r.name r.pat

/-- Modelled from the spec: evaluation in state-passing form — the graph
is read-only during matching, so evaluation returns the findings together
with the (unchanged) graph state. -/
def evaluateS (g : Graph) (r : Rule) : List Finding × Graph :=
  (evaluate g r, g)

/-
Sample graph of src/abc.py (the CREATE query, lines 41-58), transcribed
node by node and edge by edge.  Store ids are the Cypher binder names.
-/

/-- The internet node of src/abc.py. -/
def internetN : Node :=
  ⟨"internet", .IPRange,
   [("cidr", .str "0.0.0.0/0"), ("description", .str "Public Internet")]⟩

/-- SecurityGroup Web_Server_SG of src/abc.py. -/
def sgExposedN : Node :=
  ⟨"sg_exposed", .SecurityGroup, [("name", .str "Web_Server_SG")]⟩

/-- Compute i-exposed-web-01 of src/abc.py. -/
def vmExposedN : Node :=
  ⟨"vm_exposed", .Compute,
   [("id", .str "i-exposed-web-01"), ("platform", .str "AWS EC2"),
    ("type", .str "Web Server")]⟩

/-- IAMRole S3AccessRole of src/abc.py. -/
def roleS3N : Node :=
  ⟨"role_s3", .IAMRole,
   [("name", .str "S3AccessRole"),
    ("description", .str "Allows read/write to sensitive data")]⟩

/-- DataStore sensitive-data-bucket of src/abc.py. -/
def s3SensitiveN : Node :=
  ⟨"s3_sensitive", .DataStore,
   [("name", .str "sensitive-data-bucket"), ("type", .str "S3")]⟩

/-- SecurityGroup Internal_SG of src/abc.py. -/
def sgInternalN : Node :=
  ⟨"sg_internal", .SecurityGroup, [("name", .str "Internal_SG")]⟩

/-- Compute i-internal-db-02 of src/abc.py. -/
def vmInternalN : Node :=
  ⟨"vm_internal", .Compute,
   [("id", .str "i-internal-db-02"), ("platform", .str "AWS EC2"),
    ("type", .str "DB Instance")]⟩

/-- IAMRole RDSReadOnlyRole of src/abc.py. -/
def roleRdsN : Node :=
  ⟨"role_rds", .IAMRole, [("name", .str "RDSReadOnlyRole")]⟩

/-- DataStore app-db-prod of src/abc.py. -/
def dbNonSensitiveN : Node :=
  ⟨"db_non_sensitive", .DataStore,
   [("name", .str "app-db-prod"), ("type", .str "RDS")]⟩

/-- The sample graph seeded by src/abc.py's creation query: the exposed
chain internet -> Web_Server_SG -> i-exposed-web-01 -> S3AccessRole ->
sensitive-data-bucket, plus the internal-only path through Internal_SG
(which has no INGRESS_TO edge from the internet). -/
def abcGraph : Graph :=
  ⟨[internetN, sgExposedN, vmExposedN, roleS3N, s3SensitiveN,
    sgInternalN, vmInternalN, roleRdsN, dbNonSensitiveN],
   [⟨"internet", "sg_exposed", .INGRESS_TO, []⟩,
    ⟨"sg_exposed", "vm_exposed", .ATTACHED_TO, []⟩,
    ⟨"vm_exposed", "role_s3", .ASSUMES, []⟩,
    ⟨"role_s3", "s3_sensitive", .ALLOWS,
     [("actions", .strList ["s3:GetObject", "s3:PutObject"]),
      ("resource", .str "arn:aws:s3:::sensitive-data-bucket/*")]⟩,
    ⟨"sg_internal", "vm_internal", .ATTACHED_TO, []⟩,
    ⟨"vm_internal", "role_rds", .ASSUMES, []⟩,
    ⟨"role_rds", "db_non_sensitive", .ALLOWS,
     [("actions", .strList ["rds:DescribeDBInstances"]),
      ("resource", .str "*")]⟩]⟩

/-- The internet-to-sensitive-data rule, transcribed from the MATCH query
of src/abc.py lines 94-101: start at IPRange with cidr 0.0.0.0/0,
traverse INGRESS_TO to a SecurityGroup, ATTACHED_TO to a Compute, ASSUMES
to an IAMRole, ALLOWS to the DataStore named sensitive-data-bucket. -/
def internetToSensitiveDataRule : Rule :=
  ⟨"internet-to-sensitive-data",
   ⟨.IPRange, [("cidr", .str "0.0.0.0/0")],
    [⟨.INGRESS_TO, [], .SecurityGroup, []⟩,
     ⟨.ATTACHED_TO, [], .Compute, []⟩,
     ⟨.ASSUMES, [], .IAMRole, []⟩,
     ⟨.ALLOWS, [], .DataStore, [("name", .str "sensitive-data-bucket")]⟩]⟩⟩

/-- The single expected finding of the internet-to-sensitive-data rule on
the src/abc.py sample graph. -/
def abcFinding : Finding :=
  ⟨"internet-to-sensitive-data",
   [internetN, sgExposedN, vmExposedN, roleS3N, s3SensitiveN],
   [⟨"internet", "sg_exposed", .INGRESS_TO, []⟩,
    ⟨"sg_exposed", "vm_exposed", .ATTACHED_TO, []⟩,
    ⟨"vm_exposed", "role_s3", .ASSUMES, []⟩,
    ⟨"role_s3", "s3_sensitive", .ALLOWS,
     [("actions", .strList ["s3:GetObject", "s3:PutObject"]),
      ("resource", .str "arn:aws:s3:::sensitive-data-bucket/*")]⟩]⟩


/-
Sample graph of src/abc_langgraph.py (the CREATE query, lines 33-55):
the same exposed web chain, an SSH exposure path with an INGRESS_TO edge
carrying protocol TCP and port 22, and an internal-only path.
-/

/-- SecurityGroup SSH_Access_SG of src/abc_langgraph.py. -/
def sgSshN : Node :=
  ⟨"sg_ssh", .SecurityGroup, [("name", .str "SSH_Access_SG")]⟩

/-- Compute i-exposed-ssh-02 of src/abc_langgraph.py. -/
def vmSshN : Node :=
  ⟨"vm_ssh", .Compute,
   [("id", .str "i-exposed-ssh-02"), ("platform", .str "GCP GCE"),
    ("type", .str "Jump Box")]⟩

/-- Compute i-internal-db-03 of src/abc_langgraph.py. -/
def vmInternal3N : Node :=
  ⟨"vm_internal", .Compute,
   [("id", .str "i-internal-db-03"), ("platform", .str "Azure VM"),
    ("type", .str "DB Instance")]⟩

/-- IAMRole RDSReadOnlyRole of src/abc_langgraph.py. -/
def roleDbN : Node :=
  ⟨"role_db", .IAMRole, [("name", .str "RDSReadOnlyRole")]⟩

/-- The INGRESS_TO edge with protocol TCP and port 22 of
src/abc_langgraph.py line 46. -/
def sshIngressE : Edge :=
  ⟨"internet", "sg_ssh", .INGRESS_TO,
   [("protocol", .str "TCP"), ("port", .int 22)]⟩

/-- The sample graph seeded by src/abc_langgraph.py's creation query
(node binders sg_web / vm_web there carry the same labels and attributes
as sg_exposed / vm_exposed of src/abc.py). -/
def langGraph : Graph :=
  ⟨[internetN, sgExposedN, vmExposedN, roleS3N, s3SensitiveN,
    sgSshN, vmSshN,
    sgInternalN, vmInternal3N, roleDbN, dbNonSensitiveN],
   [⟨"internet", "sg_exposed", .INGRESS_TO, []⟩,
    ⟨"sg_exposed", "vm_exposed", .ATTACHED_TO, []⟩,
    ⟨"vm_exposed", "role_s3", .ASSUMES, []⟩,
    ⟨"role_s3", "s3_sensitive", .ALLOWS,
     [("actions", .strList ["s3:GetObject", "s3:PutObject"]),
      ("resource", .str "arn:aws:s3:::sensitive-data-bucket/*")]⟩,
    sshIngressE,
    ⟨"sg_ssh", "vm_ssh", .ATTACHED_TO, []⟩,
    ⟨"sg_internal", "vm_internal", .ATTACHED_TO, []⟩,
    ⟨"vm_internal", "role_db", .ASSUMES, []⟩,
    ⟨"role_db", "db_non_sensitive", .ALLOWS,
     [("actions", .strList ["rds:DescribeDBInstances"]),
      ("resource", .str "*")]⟩]⟩

/-- The ssh-exposure rule, transcribed from the MATCH query of
src/abc_langgraph.py lines 128-133: start at IPRange with cidr 0.0.0.0/0,
traverse INGRESS_TO with edge attribute port = 22 to a SecurityGroup,
then ATTACHED_TO to a Compute. -/
def sshExposureRule : Rule :=
  ⟨"ssh-exposure",
   ⟨.IPRange, [("cidr", .str "0.0.0.0/0")],
    [⟨.INGRESS_TO, [("port", .int 22)], .SecurityGroup, []⟩,
     ⟨.ATTACHED_TO, [], .Compute, []⟩]⟩⟩

/-- The single expected finding of the ssh-exposure rule on the
src/abc_langgraph.py sample graph. -/
def sshFinding : Finding :=
  ⟨"ssh-exposure",
   [internetN, sgSshN, vmSshN],
   [sshIngressE, ⟨"sg_ssh", "vm_ssh", .ATTACHED_TO, []⟩]⟩


/-
Rule registration (spec section 4.3): rule definitions arrive as raw
configuration data whose labels and edge types are plain strings; they
are validated against the closed enums at registration time.
-/

/-- A raw pattern step as it appears in a rule definition: labels and
edge types are unvalidated strings. -/
structure RawStep where
  edgeType : String
  edgePred : Attrs
  nodeLabel : String
  nodePred : Attrs
deriving DecidableEq, Repr

/-- A raw rule definition: the configuration surface of the Rule
Engine (spec section 6). -/
structure RuleDef where
  name : String
  startLabel : String
  startPred : Attrs
  steps : List RawStep
deriving DecidableEq, Repr

/-- Error of rule registration. -/
inductive RuleError
  | InvalidRuleError
deriving DecidableEq, Repr

/-- Parse a node label string against the closed label enum. -/
def parseLabel : String → Option NodeLabel
  | "IPRange" => some .IPRange
  | "SecurityGroup" => some .SecurityGroup
  | "Compute" => some .Compute
  | "IAMRole" => some .IAMRole
  | "DataStore" => some .DataStore
  | _ => none

/-- Parse an edge type string against the closed edge-type enum. -/
def parseEdgeType : String → Option EdgeType
  | "INGRESS_TO" => some .INGRESS_TO
  | "ATTACHED_TO" => some .ATTACHED_TO
  | "ASSUMES" => some .ASSUMES
  | "ALLOWS" => some .ALLOWS
  | _ => none

/-- Validate one raw step: fails if its edge type or node label is
outside the enums. -/
def parseStep (rs : RawStep) : Option Step :=
  match parseEdgeType rs.edgeType, parseLabel rs.nodeLabel with
  | some t, some l => some ⟨t, rs.edgePred, l, rs.nodePred⟩
  | _, _ => none

/-- Validate every raw step in order; fails if any step is invalid. -/
def parseSteps : List RawStep → Option (List Step)
  | [] => some []
  | rs :: rest =>
    match parseStep rs, parseSteps rest with
    | some st, some sts => some (st :: sts)
    | _, _ => none

/-- Modelled from the spec: `registerRule` of the Rule Engine, absent
from src/ — compiles a raw rule definition to a Rule, failing with
InvalidRuleError if the definition references a node label or edge type
outside the enums.  Validation happens here, at registration time; no
graph is consulted. -/
def registerRule (d : RuleDef) : Except RuleError Rule :=
  match parseLabel d.startLabel with
  | none => .error .InvalidRuleError
  | some sl =>
    match parseSteps d.steps with
    | none => .error .InvalidRuleError
    | some steps => .ok ⟨d.name, ⟨sl, d.startPred, steps⟩⟩

/-- Registering then evaluating a raw rule definition: evaluation is
only reached when registration succeeded. -/
def evaluateRuleDef (g : Graph) (d : RuleDef) : Except RuleError (List Finding) :=
  (registerRule d).map (evaluate g)

/-
The store's operation language: any sequence of add and read operations,
used to state reachability invariants of the Graph Store.
-/

/-- One operation of the Graph Store or Rule Engine interface. -/
inductive StoreOp
  | addNode (i : String) (l : NodeLabel) (a : Attrs)
  | addEdge (s t : String) (ty : EdgeType) (a : Attrs)
  | nodesByLabel (l : NodeLabel)
  | outEdges (i : String) (ty : Option EdgeType)
  | evalRule (r : Rule)
deriving DecidableEq, Repr

/-- Apply one operation to a graph state: a failing add returns the
error and leaves the graph unchanged; read operations (nodesByLabel,
outEdges, rule evaluation) never change the graph. -/
def applyStoreOp (g : Graph) : StoreOp → Graph × Option StoreError
  | .addNode i l a =>
    match g.addNode i l a with
    | .ok g1 => (g1, none)
    | .error e => (g, some e)
  | .addEdge s t ty a =>
    match g.addEdge s t ty a with
    | .ok g1 => (g1, none)
    | .error e => (g, some e)
  | .nodesByLabel _ => (g, none)
  | .outEdges _ _ => (g, none)
  | .evalRule r => ((evaluateS g r).2, none)

/-- Run a sequence of operations from the empty graph. -/
def runStoreOps (ops : List StoreOp) : Graph :=
  ops.foldl (fun g op => (applyStoreOp g op).1) Graph.empty

/-- Well-formedness of a graph: every edge's source and target reference
existing nodes of the same graph. -/
def Graph.WF (g : Graph) : Prop :=
  ∀ e ∈ g.edges, g.hasNode e.source = true ∧ g.hasNode e.target = true

/-
Model of the scripts themselves (src/abc.py and src/abc_langgraph.py):
a database connection is abstracted as a function from a query string to
either a result table or an error; the scripts' control flow around it
is transcribed literally.
-/

/-- A result row, as returned by graph.query. -/
abbrev Row := List String

/-- A database connection: maps a query string to a result table or an
error (a raised exception). -/
abbrev GraphConn := String → Except String (List Row)

/-- What a script-level query function does on one call, from the
control flow of src/abc.py lines 85-120: report no graph, print result
rows, print that nothing was found, catch-and-print an error, or let an
exception escape to the caller (no code path produces the last). -/
inductive QueryOutcome
  | noGraph
  | printedFindings (rows : List Row)
  | printedNoFindings
  | caughtAndPrinted (e : String)
  | raised (e : String)
deriving DecidableEq, Repr

/-- Whether an outcome involved issuing a database query at all. -/
def QueryOutcome.issuedQuery : QueryOutcome → Bool
  | .noGraph => false
  | _ => true

/-- The attack-path MATCH query string of src/abc.py lines 94-101
(and src/abc_langgraph.py lines 86-93). -/
def attackPathQueryString : String :=
  "MATCH (ip:IPRange \x7bcidr: '0.0.0.0/0'\x7d) -[:INGRESS_TO]->(:SecurityGroup) -[:ATTACHED_TO]->(c:Compute) -[:ASSUMES]->(r:IAMRole) -[:ALLOWS]->(d:DataStore \x7bname: 'sensitive-data-bucket'\x7d) RETURN c.id, c.platform, r.name, d.name, d.type"

/-- The SSH exposure MATCH query string of src/abc_langgraph.py
lines 128-133. -/
def sshQueryString : String :=
  "MATCH (ip:IPRange \x7bcidr: '0.0.0.0/0'\x7d) -[:INGRESS_TO \x7bport: 22\x7d]->(sg:SecurityGroup) -[:ATTACHED_TO]->(c:Compute) RETURN c.id, c.platform, sg.name"

/-- The CREATE query string seeding the sample data (src/abc.py
lines 41-58; src/abc_langgraph.py analogous). -/
def creationQueryString : String :=
  "CREATE sample cybersecurity graph data"

/-- src/abc.py lines 14-73, create_cybersecurity_graph_data: connect,
run the creation query, return the graph handle; any exception raised
inside the try block (connection or seeding failure) is caught, printed,
and turned into a None return.  The connection attempt is abstracted as
an Except value; schema refresh is folded into the connection. -/
def create_cybersecurity_graph_data (connect : Except String GraphConn) :
    Option GraphConn :=
  match connect with
  | .error _ => none
  | .ok conn =>
    match conn creationQueryString with
    | .error _ => none
    | .ok _ => some conn

/-- Shared control flow of the scripts' query functions: if the graph is
None, print that the connection is unavailable and return without
querying; otherwise run the query, print its rows (or that nothing was
found), and catch-and-print any exception. -/
def runScriptQuery (g : Option GraphConn) (qs : String) : QueryOutcome :=
  match g with
  | none => .noGraph
  | some conn =>
    match conn qs with
    | .ok rows => if rows.isEmpty then .printedNoFindings else .printedFindings rows
    | .error e => .caughtAndPrinted e

/-- src/abc.py lines 76-120, find_attack_paths. -/
def find_attack_paths (g : Option GraphConn) : QueryOutcome :=
  runScriptQuery g attackPathQueryString

/-- src/abc_langgraph.py lines 73-111, find_internet_to_sensitive_data_path. -/
def find_internet_to_sensitive_data_path (g : Option GraphConn) : QueryOutcome :=
  runScriptQuery g attackPathQueryString

/-- src/abc_langgraph.py lines 114-150, find_ssh_exposure. -/
def find_ssh_exposure (g : Option GraphConn) : QueryOutcome :=
  runScriptQuery g sshQueryString

/-- A connection on which every query raises. -/
def failingConn : GraphConn := fun _ => .error "connection reset"

/-
Declarative semantics of the matcher, used to state exhaustiveness and
order-independence: a binding is a path match when it is witnessed by a
chain of edges and nodes of the graph (pure membership, no order).
-/

/-- Declarative characterisation of one full traversal of a step list
from a frontier node: each step is witnessed by an edge of the graph
leaving the frontier with the step's type and satisfying the edge
predicate, and by a node of the graph carrying the edge's target id with
the step's label and satisfying the node predicate. -/
def PathMatch (g : Graph) : List Step → Node → Binding → Prop
  | [], _, b => b = ([], [])
  | st :: rest, frontier, b =>
    ∃ e n b2,
      e ∈ g.edges ∧ e.source = frontier.id ∧ e.type = st.edgeType ∧
      satisfies e.attributes st.edgePred = true ∧
      n ∈ g.nodes ∧ n.id = e.target ∧
      n.label = st.nodeLabel ∧ satisfies n.attributes st.nodePred = true ∧
      PathMatch g rest n b2 ∧ b = (n :: b2.1, e :: b2.2)

/-- Declarative characterisation of a finding of a rule: a full
successful traversal of the rule's pattern from some start node of the
graph satisfying the start predicate. -/
def IsFinding (g : Graph) (r : Rule) (f : Finding) : Prop :=
  ∃ n b,
    n ∈ g.nodes ∧ n.label = r.pat.startLabel ∧
    satisfies n.attributes r.pat.startPred = true ∧
    PathMatch g r.pat.steps n b ∧ f = ⟨r.name, n :: b.1, b.2⟩

/-- A rule definition referencing the node label "Network", which is
outside the label enum. -/
def badRuleDef : RuleDef := ⟨"bad-rule", "Network", [], []⟩

/-- The SSH exposure subgraph, nodes and edges in one insertion order. -/
def permGraphA : Graph :=
  ⟨[internetN, sgSshN, vmSshN],
   [sshIngressE, ⟨"sg_ssh", "vm_ssh", .ATTACHED_TO, []⟩]⟩

/-- The same nodes and edges as permGraphA, inserted in another order. -/
def permGraphB : Graph :=
  ⟨[vmSshN, internetN, sgSshN],
   [⟨"sg_ssh", "vm_ssh", .ATTACHED_TO, []⟩, sshIngressE]⟩

/-
Helper lemmas.
-/

/-- find? over an append succeeds when it succeeds on the prefix. -/
theorem find?_isSome_append {α : Type} (p : α → Bool) (l1 l2 : List α)
    (h : (l1.find? p).isSome = true) : ((l1 ++ l2).find? p).isSome = true := by
  rw [List.find?_append]
  cases h1 : l1.find? p with
  | none => rw [h1] at h; simp at h
  | some v => simp [Option.or]

/-- hasNode only looks at the node list, and is monotone under
appending nodes. -/
theorem hasNode_append (ns : List Node) (ns2 : List Node) (es es2 : List Edge)
    (i : String) (h : (Graph.mk ns es).hasNode i = true) :
    (Graph.mk (ns ++ ns2) es2).hasNode i = true := by
  simpa [Graph.hasNode, Graph.findNode] using
    find?_isSome_append (fun n => decide (n.id = i)) ns ns2
      (by simpa [Graph.hasNode, Graph.findNode] using h)

/-- Characterisation of findNode when node ids are unique: it returns
exactly the member of the node list carrying the id. -/
theorem find?_id_eq_some_iff (l : List Node) (hnd : (l.map Node.id).Nodup)
    (i : String) (n : Node) :
    l.find? (fun x => decide (x.id = i)) = some n ↔ n ∈ l ∧ n.id = i := by
  induction l with
  | nil => simp
  | cons x xs ih =>
    rw [List.map_cons, List.nodup_cons] at hnd
    by_cases hx : x.id = i
    · rw [List.find?_cons_of_pos _ (by simp [hx])]
      constructor
      · rintro h
        injection h with h
        exact ⟨by simp [h], by rw [← h, hx]⟩
      · rintro ⟨hmem, hni⟩
        rcases List.mem_cons.mp hmem with h | h
        · rw [h]
        · have hm : n.id ∈ List.map Node.id xs := List.mem_map_of_mem Node.id h
          rw [hni, ← hx] at hm
          exact absurd hm hnd.1
    · rw [List.find?_cons_of_neg _ (by simp [hx])]
      rw [ih hnd.2]
      constructor
      · rintro ⟨hmem, hni⟩; exact ⟨List.mem_cons_of_mem _ hmem, hni⟩
      · rintro ⟨hmem, hni⟩
        rcases List.mem_cons.mp hmem with h | h
        · rw [h] at hni; exact absurd hni hx
        · exact ⟨h, hni⟩

/-- findNode characterisation on a graph with unique node ids. -/
theorem findNode_eq_some_iff (g : Graph) (hnd : (g.nodes.map Node.id).Nodup)
    (i : String) (n : Node) :
    g.findNode i = some n ↔ n ∈ g.nodes ∧ n.id = i :=
  find?_id_eq_some_iff g.nodes hnd i n

/-- Membership in outEdges with a type filter. -/
theorem mem_outEdges (g : Graph) (i : String) (t : EdgeType) (e : Edge) :
    e ∈ g.outEdges i (some t) ↔ e ∈ g.edges ∧ e.source = i ∧ e.type = t := by
  simp [Graph.outEdges, List.mem_filter, and_assoc]

/-- Membership in nodesByLabel. -/
theorem mem_nodesByLabel (g : Graph) (l : NodeLabel) (n : Node) :
    n ∈ g.nodesByLabel l ↔ n ∈ g.nodes ∧ n.label = l := by
  simp [Graph.nodesByLabel, List.mem_filter]

/-- The matcher's output coincides with the declarative path semantics
on any graph with unique node ids: a binding is produced exactly when it
is a full successful traversal. -/
theorem mem_matchSteps_iff (g : Graph) (hnd : (g.nodes.map Node.id).Nodup) :
    ∀ (steps : List Step) (frontier : Node) (b : Binding),
    b ∈ matchSteps g steps frontier ↔ PathMatch g steps frontier b := by
  intro steps
  induction steps with
  | nil => intro frontier b; simp [matchSteps, PathMatch]
  | cons st rest ih =>
    intro frontier b
    simp only [matchSteps, PathMatch]
    constructor
    · intro hb
      rw [List.mem_flatMap] at hb
      obtain ⟨e, he, hbe⟩ := hb
      rw [List.mem_filter] at he
      obtain ⟨heo, hesat⟩ := he
      rw [mem_outEdges] at heo
      obtain ⟨hemem, hesrc, hety⟩ := heo
      cases hfn : g.findNode e.target with
      | none => rw [hfn] at hbe; simp at hbe
      | some n =>
        simp only [hfn] at hbe
        by_cases hcond :
            (decide (n.label = st.nodeLabel) && satisfies n.attributes st.nodePred) = true
        · rw [if_pos hcond] at hbe
          rw [List.mem_map] at hbe
          obtain ⟨b2, hb2, rfl⟩ := hbe
          have hn := (findNode_eq_some_iff g hnd e.target n).mp hfn
          rw [Bool.and_eq_true, decide_eq_true_eq] at hcond
          exact ⟨e, n, b2, hemem, hesrc, hety, hesat, hn.1, hn.2, hcond.1, hcond.2,
                 (ih n b2).mp hb2, rfl⟩
        · rw [if_neg hcond] at hbe
          simp at hbe
    · rintro ⟨e, n, b2, hemem, hesrc, hety, hesat, hnmem, hnid, hnl, hnsat, hpm, hbeq⟩
      rw [List.mem_flatMap]
      refine ⟨e, ?_, ?_⟩
      · rw [List.mem_filter, mem_outEdges]
        exact ⟨⟨hemem, hesrc, hety⟩, hesat⟩
      · have hfn : g.findNode e.target = some n :=
          (findNode_eq_some_iff g hnd e.target n).mpr ⟨hnmem, hnid⟩
        simp only [hfn]
        rw [if_pos (by rw [Bool.and_eq_true, decide_eq_true_eq]; exact ⟨hnl, hnsat⟩)]
        rw [List.mem_map]
        exact ⟨b2, (ih n b2).mpr hpm, hbeq.symm⟩

/-- evaluate coincides with the declarative finding semantics on any
graph with unique node ids. -/
theorem mem_evaluate_iff (g : Graph) (hnd : (g.nodes.map Node.id).Nodup)
    (r : Rule) (f : Finding) :
    f ∈ evaluate g r ↔ IsFinding g r f := by
  simp only [evaluate, matchPattern, IsFinding]
  constructor
  · intro hf
    rw [List.mem_flatMap] at hf
    obtain ⟨n, hn, hfm⟩ := hf
    rw [List.mem_filter] at hn
    obtain ⟨hnl, hnsat⟩ := hn
    rw [mem_nodesByLabel] at hnl
    rw [List.mem_map] at hfm
    obtain ⟨b, hb, rfl⟩ := hfm
    exact ⟨n, b, hnl.1, hnl.2, hnsat, (mem_matchSteps_iff g hnd _ n b).mp hb, rfl⟩
  · rintro ⟨n, b, hnmem, hnl, hnsat, hpm, rfl⟩
    rw [List.mem_flatMap]
    refine ⟨n, ?_, ?_⟩
    · rw [List.mem_filter, mem_nodesByLabel]
      exact ⟨⟨hnmem, hnl⟩, hnsat⟩
    · rw [List.mem_map]
      exact ⟨b, (mem_matchSteps_iff g hnd _ n b).mpr hpm, rfl⟩

/-- The declarative path semantics only depends on which nodes and edges
the graph contains, not on their order. -/
theorem PathMatch_congr (g1 g2 : Graph)
    (hn : ∀ n : Node, n ∈ g1.nodes ↔ n ∈ g2.nodes)
    (he : ∀ e : Edge, e ∈ g1.edges ↔ e ∈ g2.edges) :
    ∀ (steps : List Step) (frontier : Node) (b : Binding),
    PathMatch g1 steps frontier b ↔ PathMatch g2 steps frontier b := by
  intro steps
  induction steps with
  | nil => intro frontier b; simp [PathMatch]
  | cons st rest ih =>
    intro frontier b
    simp only [PathMatch]
    constructor
    · rintro ⟨e, n, b2, h1, h2, h3, h4, h5, h6, h7, h8, h9, h10⟩
      exact ⟨e, n, b2, (he e).mp h1, h2, h3, h4, (hn n).mp h5, h6, h7, h8,
             (ih n b2).mp h9, h10⟩
    · rintro ⟨e, n, b2, h1, h2, h3, h4, h5, h6, h7, h8, h9, h10⟩
      exact ⟨e, n, b2, (he e).mpr h1, h2, h3, h4, (hn n).mpr h5, h6, h7, h8,
             (ih n b2).mpr h9, h10⟩

/-- The declarative finding semantics only depends on which nodes and
edges the graph contains, not on their order. -/
theorem IsFinding_congr (g1 g2 : Graph)
    (hn : ∀ n : Node, n ∈ g1.nodes ↔ n ∈ g2.nodes)
    (he : ∀ e : Edge, e ∈ g1.edges ↔ e ∈ g2.edges)
    (r : Rule) (f : Finding) : IsFinding g1 r f ↔ IsFinding g2 r f := by
  simp only [IsFinding]
  constructor
  · rintro ⟨n, b, h1, h2, h3, h4, h5⟩
    exact ⟨n, b, (hn n).mp h1, h2, h3, (PathMatch_congr g1 g2 hn he _ n b).mp h4, h5⟩
  · rintro ⟨n, b, h1, h2, h3, h4, h5⟩
    exact ⟨n, b, (hn n).mpr h1, h2, h3, (PathMatch_congr g1 g2 hn he _ n b).mpr h4, h5⟩

/-- Both add operations preserve well-formedness, and read operations
leave the graph untouched. -/
theorem wf_applyStoreOp (g : Graph) (op : StoreOp) (h : g.WF) :
    (applyStoreOp g op).1.WF := by
  cases op with
  | addNode i l a =>
    by_cases hi : g.hasNode i = true
    · simpa [applyStoreOp, Graph.addNode, hi] using h
    · simp only [applyStoreOp, Graph.addNode, hi, if_false, Bool.false_eq_true]
      intro e he
      simp only [Graph.WF] at h
      have he2 : e ∈ g.edges := he
      exact ⟨hasNode_append g.nodes [⟨i, l, a⟩] g.edges g.edges e.source (h e he2).1,
             hasNode_append g.nodes [⟨i, l, a⟩] g.edges g.edges e.target (h e he2).2⟩
  | addEdge s t ty a =>
    by_cases hc : (g.hasNode s && g.hasNode t) = true
    · simp only [applyStoreOp, Graph.addEdge, hc, if_true]
      intro e he
      rcases List.mem_append.mp he with hold | hnew
      · exact h e hold
      · rw [List.mem_singleton] at hnew
        subst hnew
        rw [Bool.and_eq_true] at hc
        exact ⟨hc.1, hc.2⟩
    · simpa [applyStoreOp, Graph.addEdge, hc] using h
  | nodesByLabel l => simpa [applyStoreOp] using h
  | outEdges i ty => simpa [applyStoreOp] using h
  | evalRule r => simpa [applyStoreOp, evaluateS] using h

/-- Well-formedness from any starting point of a run of operations. -/
theorem wf_foldl_applyStoreOp (ops : List StoreOp) :
    ∀ g : Graph, g.WF → (ops.foldl (fun g op => (applyStoreOp g op).1) g).WF := by
  induction ops with
  | nil => intro g hg; exact hg
  | cons op rest ih =>
    intro g hg
    exact ih _ (wf_applyStoreOp g op hg)

/-- A step whose edge type or node label does not parse is invalid. -/
theorem parseStep_eq_none (rs : RawStep)
    (h : parseEdgeType rs.edgeType = none ∨ parseLabel rs.nodeLabel = none) :
    parseStep rs = none := by
  rcases h with h | h
  · unfold parseStep
    rw [h]
  · unfold parseStep
    rw [h]
    cases parseEdgeType rs.edgeType <;> rfl

/-- A step list containing an invalid step does not validate. -/
theorem parseSteps_eq_none (l : List RawStep) (rs : RawStep)
    (hmem : rs ∈ l) (hn : parseStep rs = none) : parseSteps l = none := by
  induction l with
  | nil => simp at hmem
  | cons x xs ih =>
    rcases List.mem_cons.mp hmem with h | h
    · subst h
      unfold parseSteps
      rw [hn]
    · unfold parseSteps
      rw [ih h]
      cases parseStep x <;> rfl

/-- C1: On the seeded sample graph of src/abc.py — which contains both
the exposed chain IPRange(0.0.0.0/0) -> Web_Server_SG -> i-exposed-web-01
-> S3AccessRole -> sensitive-data-bucket and the internal-only path
through Internal_SG with no INGRESS_TO edge from the internet —
evaluating the internet-to-sensitive-data rule returns exactly one
Finding, binding Compute i-exposed-web-01, IAMRole S3AccessRole and
DataStore sensitive-data-bucket, and returns no Finding involving the
internal path's Compute node. -/
theorem internet_to_sensitive_data_on_sample_graph :
    evaluate abcGraph internetToSensitiveDataRule = [abcFinding] ∧
    vmExposedN ∈ abcFinding.boundNodes ∧
    roleS3N ∈ abcFinding.boundNodes ∧
    s3SensitiveN ∈ abcFinding.boundNodes ∧
    attrLookup vmExposedN.attributes "id" = some (.str "i-exposed-web-01") ∧
    attrLookup roleS3N.attributes "name" = some (.str "S3AccessRole") ∧
    attrLookup s3SensitiveN.attributes "name" = some (.str "sensitive-data-bucket") ∧
    (∀ f ∈ evaluate abcGraph internetToSensitiveDataRule,
      vmInternalN ∉ f.boundNodes) := by
  decide

/-- C3: addEdge with an absent source or target id fails with
UnknownNodeError, and the graph afterwards equals the graph before the
call — no partial edge is stored. -/
theorem addEdge_unknown_endpoint (g : Graph) (s t : String) (ty : EdgeType) (a : Attrs)
    (h : ¬(g.hasNode s = true ∧ g.hasNode t = true)) :
    g.addEdge s t ty a = .error .UnknownNodeError ∧
    applyStoreOp g (.addEdge s t ty a) = (g, some .UnknownNodeError) := by
  have hc : (g.hasNode s && g.hasNode t) = false := by
    cases hs : g.hasNode s <;> cases ht : g.hasNode t <;> simp_all
  constructor
  · simp [Graph.addEdge, hc]
  · simp [applyStoreOp, Graph.addEdge, hc]

/-- Witness for C3 at a concrete input: adding an edge between two
absent ids on the empty graph. -/
theorem addEdge_unknown_endpoint_witness :
    Graph.empty.addEdge "a" "b" .INGRESS_TO [] = .error .UnknownNodeError ∧
    applyStoreOp Graph.empty (.addEdge "a" "b" .INGRESS_TO []) =
      (Graph.empty, some .UnknownNodeError) :=
  addEdge_unknown_endpoint Graph.empty "a" "b" .INGRESS_TO [] (by decide)

/-- C4: In every graph state reachable by any sequence of the store's
operations (addNode, addEdge, nodesByLabel, outEdges, rule evaluation)
from the empty graph, every edge's source and target ids reference nodes
that exist in that same graph. -/
theorem edges_reference_existing_nodes (ops : List StoreOp) :
    (runStoreOps ops).WF := by
  rw [runStoreOps]
  refine wf_foldl_applyStoreOp ops Graph.empty ?_
  intro e he
  simp [Graph.empty] at he

/-- C7: Evaluation is non-mutating and idempotent: the state-passing
form of evaluate returns the graph unchanged, evaluating again on the
returned state yields the identical finding list, and a rule-evaluation
operation in a run of store operations leaves the graph state untouched. -/
theorem evaluate_idempotent_and_readonly (g : Graph) (r : Rule) :
    (evaluateS g r).2 = g ∧
    (evaluateS (evaluateS g r).2 r).1 = (evaluateS g r).1 ∧
    applyStoreOp g (.evalRule r) = (g, none) :=
  ⟨rfl, rfl, rfl⟩

/-- C5: Registering a rule definition that references a node label
outside the label enum or an edge type outside the edge-type enum fails
with InvalidRuleError at registration time — and therefore also any
attempt to register-then-evaluate it against any graph surfaces that
same registration error before any matching runs. -/
theorem registerRule_invalid_fails_fast (d : RuleDef)
    (h : parseLabel d.startLabel = none ∨
         ∃ rs ∈ d.steps,
           parseEdgeType rs.edgeType = none ∨ parseLabel rs.nodeLabel = none) :
    registerRule d = .error .InvalidRuleError ∧
    ∀ g : Graph, evaluateRuleDef g d = .error .InvalidRuleError := by
  have hreg : registerRule d = .error .InvalidRuleError := by
    rcases h with h | ⟨rs, hmem, hrs⟩
    · unfold registerRule
      rw [h]
    · have hps : parseSteps d.steps = none :=
        parseSteps_eq_none d.steps rs hmem (parseStep_eq_none rs hrs)
      unfold registerRule
      rw [hps]
      cases parseLabel d.startLabel <;> rfl
  refine ⟨hreg, fun g => ?_⟩
  rw [evaluateRuleDef, hreg]
  rfl

/-- Witness for C5 at a concrete input: the rule definition with start
label "Network", which is outside the label enum. -/
theorem registerRule_invalid_fails_fast_witness :
    registerRule badRuleDef = .error .InvalidRuleError ∧
    evaluateRuleDef abcGraph badRuleDef = .error .InvalidRuleError :=
  ⟨(registerRule_invalid_fails_fast badRuleDef (Or.inl rfl)).1,
   (registerRule_invalid_fails_fast badRuleDef (Or.inl rfl)).2 abcGraph⟩

/-- C6: evaluate returns the same set of findings regardless of the
order in which nodes and edges were inserted: two graphs holding the
same node records and the same edge records in different insertion
orders (with unique node ids) yield member-for-member equal finding
lists for every rule. -/
theorem evaluate_insertion_order_independent (g1 g2 : Graph) (r : Rule)
    (hn : g1.nodes.Perm g2.nodes) (he : g1.edges.Perm g2.edges)
    (hnd : (g1.nodes.map Node.id).Nodup) :
    ∀ f : Finding, f ∈ evaluate g1 r ↔ f ∈ evaluate g2 r := by
  intro f
  have hnd2 : (g2.nodes.map Node.id).Nodup := ((hn.map Node.id).nodup_iff).mp hnd
  rw [mem_evaluate_iff g1 hnd r f, mem_evaluate_iff g2 hnd2 r f]
  exact IsFinding_congr g1 g2 (fun n => hn.mem_iff) (fun e => he.mem_iff) r f

/-- Witness for C6 at a concrete input: the SSH subgraph in two
insertion orders, with the expected finding present in both. -/
theorem evaluate_insertion_order_independent_witness :
    (sshFinding ∈ evaluate permGraphA sshExposureRule ↔
     sshFinding ∈ evaluate permGraphB sshExposureRule) ∧
    sshFinding ∈ evaluate permGraphA sshExposureRule :=
  ⟨evaluate_insertion_order_independent permGraphA permGraphB sshExposureRule
     (by decide) (by decide) (by decide) sshFinding,
   by decide⟩

/-- C8: Matching is exhaustive and sound: on any graph with unique node
ids, evaluate emits a finding exactly for every full successful
traversal of the rule's pattern — all matches are returned, and the
result is never a silently truncated subset. -/
theorem matching_exhaustive (g : Graph) (r : Rule) (f : Finding)
    (hnd : (g.nodes.map Node.id).Nodup) :
    f ∈ evaluate g r ↔ IsFinding g r f :=
  mem_evaluate_iff g hnd r f

/-- Witness for C8 at a concrete input: the sample graph's attack-path
finding is a declarative match, obtained through the equivalence. -/
theorem matching_exhaustive_witness :
    IsFinding abcGraph internetToSensitiveDataRule abcFinding :=
  (matching_exhaustive abcGraph internetToSensitiveDataRule abcFinding
    (by decide)).mp (by decide)

/-- C2: On the seeded src/abc_langgraph.py graph — whose INGRESS_TO edge
from IPRange(0.0.0.0/0) to SecurityGroup SSH_Access_SG carries port 22,
attached to Compute i-exposed-ssh-02 — the ssh-exposure rule returns
exactly the one Finding for that Compute; and on every graph, every
finding of the ssh-exposure rule binds as its first edge an INGRESS_TO
edge whose port attribute is exactly 22, so an INGRESS_TO edge with no
port attribute or a port other than 22 never produces a finding. -/
theorem ssh_exposure_rule_correct :
    evaluate langGraph sshExposureRule = [sshFinding] ∧
    ∀ (g : Graph) (f : Finding), f ∈ evaluate g sshExposureRule →
      ∃ e1 e2, f.boundEdges = [e1, e2] ∧ e1.type = EdgeType.INGRESS_TO ∧
        attrLookup e1.attributes "port" = some (.int 22) := by
  refine ⟨by decide, ?_⟩
  intro g f hf
  rw [evaluate, matchPattern, List.mem_flatMap] at hf
  obtain ⟨n0, hn0, hfm⟩ := hf
  rw [List.mem_map] at hfm
  obtain ⟨b, hb, rfl⟩ := hfm
  have hsteps : sshExposureRule.pat.steps =
      [⟨.INGRESS_TO, [("port", .int 22)], .SecurityGroup, []⟩,
       ⟨.ATTACHED_TO, [], .Compute, []⟩] := rfl
  rw [hsteps] at hb
  simp only [matchSteps] at hb
  rw [List.mem_flatMap] at hb
  obtain ⟨e1, he1, hb1⟩ := hb
  rw [List.mem_filter] at he1
  obtain ⟨he1o, he1sat⟩ := he1
  cases hfn1 : g.findNode e1.target with
  | none => rw [hfn1] at hb1; simp at hb1
  | some n1 =>
    simp only [hfn1] at hb1
    by_cases hc1 :
        (decide (n1.label = NodeLabel.SecurityGroup) && satisfies n1.attributes []) = true
    · rw [if_pos hc1, List.mem_map] at hb1
      obtain ⟨b2, hb2, rfl⟩ := hb1
      rw [List.mem_flatMap] at hb2
      obtain ⟨e2, he2, hb3⟩ := hb2
      cases hfn2 : g.findNode e2.target with
      | none => rw [hfn2] at hb3; simp at hb3
      | some n2 =>
        simp only [hfn2] at hb3
        by_cases hc2 :
            (decide (n2.label = NodeLabel.Compute) && satisfies n2.attributes []) = true
        · rw [if_pos hc2, List.mem_map] at hb3
          obtain ⟨b3, hb4, rfl⟩ := hb3
          rw [List.mem_singleton] at hb4
          subst hb4
          refine ⟨e1, e2, rfl, ?_, ?_⟩
          · exact ((mem_outEdges g n0.id .INGRESS_TO e1).mp he1o).2.2
          · simpa [satisfies] using he1sat
        · rw [if_neg hc2] at hb3; simp at hb3
    · rw [if_neg hc1] at hb1; simp at hb1

/-- Witness for C2's general part at a concrete input: the sample SSH
finding's first bound edge carries port 22. -/
theorem ssh_exposure_rule_correct_witness :
    ∃ e1 e2, sshFinding.boundEdges = [e1, e2] ∧ e1.type = EdgeType.INGRESS_TO ∧
      attrLookup e1.attributes "port" = some (.int 22) :=
  ssh_exposure_rule_correct.2 langGraph sshFinding (by decide)

/-- C9 counterexample: the claim says a failure during query execution
propagates to the caller, but src/abc.py's find_attack_paths wraps the
query in try/except, prints the error and returns normally: on a
connection whose query raises, the outcome is caught-and-printed, not a
raised exception. -/
theorem find_attack_paths_catches_query_error :
    find_attack_paths (some failingConn) =
      QueryOutcome.caughtAndPrinted "connection reset" ∧
    find_attack_paths (some failingConn) ≠
      QueryOutcome.raised "connection reset" := by
  constructor
  · rfl
  · decide

/-- C9 amended: every error arising during query execution in the
scripts is caught and printed inside the query function — the function
returns normally and never lets the exception propagate — and an error
during graph creation is likewise swallowed into a None return. -/
theorem script_query_errors_caught_not_propagated (conn : GraphConn) (e : String)
    (h : conn attackPathQueryString = .error e) :
    find_attack_paths (some conn) = QueryOutcome.caughtAndPrinted e ∧
    (∀ e2 : String, find_attack_paths (some conn) ≠ QueryOutcome.raised e2) ∧
    (∀ e0 : String, create_cybersecurity_graph_data (.error e0) = none) := by
  refine ⟨?_, ?_, fun e0 => rfl⟩
  · simp [find_attack_paths, runScriptQuery, h]
  · intro e2
    simp [find_attack_paths, runScriptQuery, h]

/-- Witness for C9's amended claim at a concrete input. -/
theorem script_query_errors_caught_not_propagated_witness :
    find_attack_paths (some failingConn) =
      QueryOutcome.caughtAndPrinted "connection reset" ∧
    find_attack_paths (some failingConn) ≠ QueryOutcome.raised "boom" :=
  ⟨(script_query_errors_caught_not_propagated failingConn "connection reset" rfl).1,
   (script_query_errors_caught_not_propagated failingConn "connection reset" rfl).2.1
     "boom"⟩

/-- C10: When graph construction raises internally (connection failure
or seeding failure), create_cybersecurity_graph_data returns None
instead of propagating; and each query function, given a None graph,
issues no database query, reports the missing graph, and returns
normally. -/
theorem create_none_and_query_functions_guard (conn : GraphConn) (e : String)
    (h : conn creationQueryString = .error e) :
    (∀ e0 : String, create_cybersecurity_graph_data (.error e0) = none) ∧
    create_cybersecurity_graph_data (.ok conn) = none ∧
    find_attack_paths none = QueryOutcome.noGraph ∧
    find_internet_to_sensitive_data_path none = QueryOutcome.noGraph ∧
    find_ssh_exposure none = QueryOutcome.noGraph ∧
    (find_attack_paths none).issuedQuery = false ∧
    (find_internet_to_sensitive_data_path none).issuedQuery = false ∧
    (find_ssh_exposure none).issuedQuery = false := by
  refine ⟨fun e0 => rfl, ?_, rfl, rfl, rfl, rfl, rfl, rfl⟩
  simp [create_cybersecurity_graph_data, h]

/-- Witness for C10 at a concrete input: a connection whose seeding
query raises. -/
theorem create_none_and_query_functions_guard_witness :
    create_cybersecurity_graph_data (.ok failingConn) = none :=
  (create_none_and_query_functions_guard failingConn "connection reset" rfl).2.1
